import Mathlib

/-!
Verification of the gesture-driven Christmas-tree animation core
(`src/App.tsx` of Dwanting/christmas-tree-with-photos).

The per-frame logic of the source is shallowly embedded as pure Lean
functions over exact rationals (ℚ) for the discrete state machines and
over ℝ for the geometric generators that use `Math.cos` / `Math.sqrt`.
Each definition mirrors one place in the source file, named after the
source symbol it embeds.
-/

namespace ChristmasTree

/-! ### Scene state and gesture debouncing

Embeds `GestureController.predictWebcam` (App.tsx lines 939-956): the
label-stability counter and the discrete gesture emission that drives
`setSceneState` via `onGesture`.  The scene state enum is
`'CHAOS' | 'FORMED'` in the source. -/

inductive SceneState where
  | CHAOS
  | FORMED
deriving DecidableEq, Repr

/-- Effect of the discrete-gesture emission on the scene state:
`if (name === "Open_Palm") onGesture("CHAOS"); if (name === "Closed_Fist")
onGesture("FORMED")`, where `onGesture` is `setSceneState`.  Any other
label leaves the scene state unchanged. -/
def applyGestureIntent (name : String) (scene : SceneState) : SceneState :=
  if name = "Open_Palm" then SceneState.CHAOS
  else if name = "Closed_Fist" then SceneState.FORMED
  else scene

/-- Debouncer state carried across frames by `lastGestureRef`,
`gestureStableCountRef`, plus the scene state the emissions write to. -/
structure GestureDebounceState where
  lastGesture : String
  stableCount : ℕ
  scene : SceneState
deriving DecidableEq, Repr

/-- One frame of the gestures-present branch of `predictWebcam`
(App.tsx 941-957): increment the stability counter when the top label is
unchanged, else reset it to 0 with the new label; emit the discrete
intent when `score > 0.35 && gestureStableCountRef.current >= 2`. -/
def gestureFrame (name : String) (score : ℚ) (s : GestureDebounceState) : GestureDebounceState :=
  let stableCount := if name = s.lastGesture then s.stableCount + 1 else 0
  let scene :=
    if score > 0.35 ∧ stableCount ≥ 2 then applyGestureIntent name s.scene else s.scene
  { lastGesture := name, stableCount := stableCount, scene := scene }

/-- A stream of gesture frames processed in order. -/
def gestureRun (frames : List (String × ℚ)) (s : GestureDebounceState) : GestureDebounceState :=
  frames.foldl (fun st f => gestureFrame f.1 f.2 st) s

/-! ### Pinch detection with hysteresis

Embeds App.tsx lines 992-1010.  The thumb-tip/index-tip `distance` and
the boolean `opennessOk` (openness band test, computed upstream from the
landmarks, see `opennessOf` below) enter as inputs; the committed state
is `pinchStateRef` plus `pinchChangeStableCountRef`. -/

/-- Threshold to enter the pinching state (`pinchDownThreshold = 0.072`). -/
def pinchDownThreshold : ℚ := 0.072

/-- Threshold to leave the pinching state (`pinchUpThreshold = 0.098`). -/
def pinchUpThreshold : ℚ := 0.098

/-- Committed pinch state: `pinchStateRef` and `pinchChangeStableCountRef`. -/
structure PinchState where
  pinch : Bool
  changeStable : ℕ
deriving DecidableEq, Repr

/-- One frame of the pinch update (App.tsx 992-1010).
`gestureBlocksPinch` forces the state to false immediately; otherwise a
change of the raw pinch reading must persist for 2 consecutive frames
before being committed.  `scoreOk` embeds the JS `name ? score > 0.5 :
true` (the empty string is falsy). -/
def pinchFrame (name : String) (score : ℚ) (opennessOk : Bool) (distance : ℚ)
    (p : PinchState) : PinchState :=
  let gestureBlocksPinch : Bool := name == "Closed_Fist" || name == "Open_Palm"
  let pinchingByDistance : Bool :=
    if p.pinch then decide (distance < pinchUpThreshold)
    else decide (distance < pinchDownThreshold)
  let scoreOk : Bool := if name == "" then true else decide (score > 0.5)
  let rawPinch : Bool := !gestureBlocksPinch && scoreOk && opennessOk && pinchingByDistance
  if gestureBlocksPinch then { pinch := false, changeStable := 0 }
  else if rawPinch = p.pinch then { pinch := p.pinch, changeStable := 0 }
  else if p.changeStable + 1 ≥ 2 then { pinch := rawPinch, changeStable := 0 }
  else { pinch := p.pinch, changeStable := p.changeStable + 1 }

/-- Per-frame input to the pinch detector. -/
structure PinchFrameInput where
  name : String
  score : ℚ
  opennessOk : Bool
  distance : ℚ
deriving DecidableEq, Repr

/-- A stream of pinch frames processed in order. -/
def pinchRun (frames : List PinchFrameInput) (p : PinchState) : PinchState :=
  frames.foldl (fun st f => pinchFrame f.name f.score f.opennessOk f.distance st) p

/-! ### Photo selection and lightbox state machine

Embeds the `Experience` component (App.tsx 709-827): the pinch-to-open
trigger with its cooldown and has-pinched latch, the nearest-5 weighted
photo selection, the recently-viewed FIFO, and the fade-out close path.
Wall-clock times are rationals in milliseconds. -/

/-- One entry of the `photoDistances` array built in `Experience.useFrame`
(App.tsx 744-750): child index, camera distance, and the backing photo
index `i % photos.length`. -/
structure PhotoCandidate where
  index : ℕ
  distance : ℚ
  textureIndex : ℕ
deriving DecidableEq, Repr

/-- Builds `photoDistances` from the per-child camera distances (the scene
graph children are visited in index order) and the photo-list length. -/
def photoDistanceList (distances : List ℚ) (nPhotos : ℕ) : List PhotoCandidate :=
  distances.enum.map fun p => { index := p.1, distance := p.2, textureIndex := p.1 % nPhotos }

/-- `photoDistances.sort((a, b) => a.distance - b.distance)`: ascending by
distance (modelled with a stable merge sort). -/
def sortByDistance (l : List PhotoCandidate) : List PhotoCandidate :=
  l.mergeSort fun a b => decide (a.distance ≤ b.distance)

/-- `photoDistances.slice(0, Math.min(5, photoDistances.length))` after
sorting: the nearest (at most) five candidates. -/
def nearestPhotoList (distances : List ℚ) (nPhotos : ℕ) : List PhotoCandidate :=
  (sortByDistance (photoDistanceList distances nPhotos)).take
    (min 5 (photoDistanceList distances nPhotos).length)

/-- Filter out recently viewed photos; if that empties the set, fall back
to the unfiltered nearest list (App.tsx 757-764). -/
def candidatePhotoList (nearest : List PhotoCandidate) (recent : List ℕ) : List PhotoCandidate :=
  if (nearest.filter fun c => !(recent.contains c.textureIndex)).length = 0 then nearest
  else nearest.filter fun c => !(recent.contains c.textureIndex)

/-- `candidatePhotos.reduce((sum, _, i) => sum + (len - i), 0)`: the total
of the per-rank weights `len - i`. -/
def totalWeightOf (n : ℕ) : ℕ :=
  (List.range n).foldl (fun sum i => sum + (n - i)) 0

/-- The selection loop of App.tsx 772-782: walk the candidates in order,
subtracting the rank weight `len - i` from the scaled random value, and
return the first candidate at which the running value drops to ≤ 0 (the
first candidate is the default, as in the source initialisation). -/
def pickWeightedAux (len : ℕ) (default : PhotoCandidate) :
    List PhotoCandidate → ℕ → ℚ → PhotoCandidate
  | [], _, _ => default
  | c :: rest, i, rv =>
    let rv2 := rv - ((len : ℚ) - (i : ℚ))
    if rv2 ≤ 0 then c else pickWeightedAux len default rest (i + 1) rv2

/-- Weighted random choice over the candidate list, given the uniform draw
`rand = Math.random()`.  On an empty candidate list the source would fault
(`candidatePhotos[0]` is undefined); that case is `none` here. -/
def pickWeighted (candidates : List PhotoCandidate) (rand : ℚ) : Option PhotoCandidate :=
  match candidates with
  | [] => none
  | c0 :: _ =>
    some (pickWeightedAux candidates.length c0 candidates 0
      (rand * (totalWeightOf candidates.length : ℚ)))

/-- Recently-viewed history update (App.tsx 787-790): push the selected
index, then drop the oldest entry when the length exceeds
`MAX_RECENT_HISTORY = 10`. -/
def pushRecent (recent : List ℕ) (idx : ℕ) : List ℕ :=
  if (recent ++ [idx]).length > 10 then (recent ++ [idx]).tail else recent ++ [idx]

/-- Mutable state of the `Experience` component that the pinch/lightbox
logic reads and writes: `isLightboxOpen`, `lightboxPhotoIndex`,
`hasPinchedRef`, `pinchCooldownUntilRef`, `fadeOutTimerRef` (the pending
close deadline), `recentlyViewedPhotos`, and the lightbox opacity. -/
structure ExperienceState where
  isLightboxOpen : Bool
  lightboxPhotoIndex : Option ℕ
  hasPinched : Bool
  pinchCooldownUntil : ℚ
  fadeOutTimer : Option ℚ
  recentlyViewed : List ℕ
  lightboxOpacity : ℚ
deriving DecidableEq, Repr

/-- Initial `Experience` state at mount time.  The `useEffect` with
dependency `[sceneState]` runs once after the first render as well, so the
pinch cooldown is armed to `Date.now() + 650` already at mount
(App.tsx 722-730). -/
def experienceMount (now : ℚ) : ExperienceState :=
  { isLightboxOpen := false
    lightboxPhotoIndex := none
    hasPinched := false
    pinchCooldownUntil := now + 650
    fadeOutTimer := none
    recentlyViewed := []
    lightboxOpacity := 1 }

/-- Effect of a `sceneState` change (any CHAOS/FORMED toggle) at time
`now`: the `useEffect` re-arms `pinchCooldownUntilRef.current =
Date.now() + 650` (App.tsx 729). -/
def experienceSceneToggle (now : ℚ) (st : ExperienceState) : ExperienceState :=
  { st with pinchCooldownUntil := now + 650 }

/-- One `Experience.useFrame` tick (App.tsx 732-827), restricted to the
pinch/lightbox logic.  `isPinching` is the composite JS condition
`handPosition && handPosition.isPinching === true` (an absent hand reads
as false).  `distances` are the camera distances of the photo-group
children, `rand` the uniform draw of the selection.  The 10 ms fade-in
timer that later raises the opacity to 1 is outside the frame itself and
is not part of this state; the fade-out close timer is recorded as its
deadline `now + 400`.  With zero candidates the source selection faults;
the state is left unchanged in that case. -/
def experienceFrame (now : ℚ) (isPinching : Bool) (distances : List ℚ) (nPhotos : ℕ)
    (rand : ℚ) (st : ExperienceState) : ExperienceState :=
  let st1 :=
    if st.pinchCooldownUntil ≤ now ∧ isPinching = true ∧ st.isLightboxOpen = false ∧
        st.hasPinched = false then
      let nearest := nearestPhotoList distances nPhotos
      let candidates := candidatePhotoList nearest st.recentlyViewed
      match pickWeighted candidates rand with
      | none => st
      | some sel =>
        { st with
          isLightboxOpen := true
          lightboxPhotoIndex := some sel.textureIndex
          lightboxOpacity := 0
          hasPinched := true
          fadeOutTimer := none
          recentlyViewed := pushRecent st.recentlyViewed sel.textureIndex }
    else st
  if isPinching = false then
    let st2 :=
      if st1.isLightboxOpen = true ∧ st1.fadeOutTimer = none then
        { st1 with lightboxOpacity := 0, fadeOutTimer := some (now + 400) }
      else st1
    { st2 with hasPinched := false }
  else st1

/-! ### Particle burst simulator (ambient mode)

Embeds the `ParticleEffect.useFrame` batch bookkeeping (App.tsx 573-587).
Only the fields the lifecycle reads are modelled: `startTime`
(milliseconds, `Date.now()` at creation) and `lifetime` (seconds).  The
batch to be created on a spawn is supplied as `newBatch`, standing for
the randomised `createFirework(true)` result, whose `startTime` is the
current time. -/

structure ParticleBatch where
  startTime : ℚ
  lifetime : ℚ
deriving DecidableEq, Repr

/-- Live state of the simulator: `particleBatchesRef` and
`nextSpawnTime`. -/
structure ParticleSimState where
  batches : List ParticleBatch
  nextSpawnTime : ℚ
deriving DecidableEq, Repr

/-- The survival test of the eviction filter:
`(now - batch.startTime) / 1000 < batch.lifetime`. -/
def batchAlive (now : ℚ) (b : ParticleBatch) : Bool :=
  decide ((now - b.startTime) / 1000 < b.lifetime)

/-- One `ParticleEffect.useFrame` tick (App.tsx 576-587): while the
lightbox is open and the spawn time has arrived, push a new batch only if
fewer than 8 are live, scheduling the next spawn 300 ms later; then drop
every batch whose elapsed time reached its lifetime. -/
def particleFrame (isPhotoOpen : Bool) (now : ℚ) (newBatch : ParticleBatch)
    (st : ParticleSimState) : ParticleSimState :=
  let spawn : Bool := isPhotoOpen && decide (st.nextSpawnTime ≤ now) &&
    decide (st.batches.length < 8)
  let batches1 := if spawn then st.batches ++ [newBatch] else st.batches
  let nextSpawn1 := if spawn then now + 300 else st.nextSpawnTime
  { batches := batches1.filter (batchAlive now), nextSpawnTime := nextSpawn1 }

/-! ### Population animator: per-frame position interpolation

Embeds the `useFrame` position updates of `PhotoOrnaments`
(App.tsx 274-301), `ChristmasElements` (401-412) and `FairyLights`
(447-460).  Positions are rational 3-vectors; `lerpVec` is
`THREE.Vector3.lerp`: `this += (v - this) * alpha` componentwise. -/

structure Vec3 where
  x : ℚ
  y : ℚ
  z : ℚ
deriving DecidableEq, Repr

/-- `THREE.Vector3.lerp(v, alpha)` componentwise. -/
def lerpVec (a b : Vec3) (t : ℚ) : Vec3 :=
  { x := a.x + (b.x - a.x) * t
    y := a.y + (b.y - a.y) * t
    z := a.z + (b.z - a.z) * t }

/-- The spatial fields every population entity carries: `chaosPos` and
`targetPos` fixed at construction, `currentPos` mutated every frame. -/
structure AnimEntity where
  chaosPos : Vec3
  targetPos : Vec3
  currentPos : Vec3
deriving DecidableEq, Repr

/-- The target the interpolation aims at:
`const target = isFormed ? objData.targetPos : objData.chaosPos`. -/
def activeTarget (isFormed : Bool) (e : AnimEntity) : Vec3 :=
  if isFormed then e.targetPos else e.chaosPos

/-- Per-frame interpolation rate of a photo ornament:
`delta * (isFormed ? 0.8 * objData.weight : 0.5)` (App.tsx 283). -/
def ornamentRate (isFormed : Bool) (weight : ℚ) : ℚ :=
  if isFormed then 0.8 * weight else 0.5

/-- Photo-ornament position update:
`objData.currentPos.lerp(target, delta * (isFormed ? 0.8 * objData.weight : 0.5))`. -/
def ornamentPositionStep (isFormed : Bool) (delta : ℚ) (weight : ℚ) (e : AnimEntity) : Vec3 :=
  lerpVec e.currentPos (activeTarget isFormed e) (delta * ornamentRate isFormed weight)

/-- Christmas-element position update:
`objData.currentPos.lerp(target, delta * 1.5)` (App.tsx 408). -/
def elementPositionStep (isFormed : Bool) (delta : ℚ) (e : AnimEntity) : Vec3 :=
  lerpVec e.currentPos (activeTarget isFormed e) (delta * 1.5)

/-- Fairy-light position update:
`objData.currentPos.lerp(target, delta * 2.0)` (App.tsx 454). -/
def lightPositionStep (isFormed : Bool) (delta : ℚ) (e : AnimEntity) : Vec3 :=
  lerpVec e.currentPos (activeTarget isFormed e) (delta * 2.0)

/-- `p` lies strictly between `a` and `b` on the segment from `a` to `b`:
it is a proper convex combination of the two endpoints. -/
def StrictBetween (a b p : Vec3) : Prop :=
  ∃ t : ℚ, 0 < t ∧ t < 1 ∧ p = lerpVec a b t

/-! ### Procedural layout generators

Embeds `getTreePosition` (App.tsx 174-180) and the formed-target
construction of `PhotoOrnaments` (238-242), `ChristmasElements`
(382-388) and `FairyLights` (438-440).  The uniform draws
`Math.random()` enter as parameters `u… ∈ [0, 1)`; the trigonometry
forces these definitions into ℝ. -/

/-- The cone's local radius at height `y`:
`rBase * (1 - (y + h/2) / h)` with `CONFIG.tree = { height: 32, radius: 13 }`. -/
noncomputable def coneLocalRadius (y : ℝ) : ℝ :=
  13 * (1 - (y + 32 / 2) / 32)

/-- `getTreePosition` (App.tsx 174-180): uniform height, cone-scaled
radius, uniform angle, uniform radial distance, converted to Cartesian. -/
noncomputable def getTreePosition (u1 u2 u3 : ℝ) : ℝ × ℝ × ℝ :=
  let h : ℝ := 32
  let rBase : ℝ := 13
  let y := u1 * h - h / 2
  let normalizedY := (y + h / 2) / h
  let currentRadius := rBase * (1 - normalizedY)
  let theta := u2 * Real.pi * 2
  let r := u3 * currentRadius
  (r * Real.cos theta, y, r * Real.sin theta)

/-- Formed target of a photo ornament (App.tsx 238-242): the cone radius
at the sampled height plus 0.5, placed at a uniform angle. -/
noncomputable def ornamentTargetPos (u1 u2 : ℝ) : ℝ × ℝ × ℝ :=
  let h : ℝ := 32
  let rBase : ℝ := 13
  let y := u1 * h - h / 2
  let currentRadius := rBase * (1 - (y + h / 2) / h) + 0.5
  let theta := u2 * Real.pi * 2
  (currentRadius * Real.cos theta, y, currentRadius * Real.sin theta)

/-- Formed target of a Christmas element (App.tsx 382-388): the cone
radius at the sampled height scaled by 0.95. -/
noncomputable def elementTargetPos (u1 u2 : ℝ) : ℝ × ℝ × ℝ :=
  let h : ℝ := 32
  let rBase : ℝ := 13
  let y := u1 * h - h / 2
  let currentRadius := rBase * (1 - (y + h / 2) / h) * 0.95
  let theta := u2 * Real.pi * 2
  (currentRadius * Real.cos theta, y, currentRadius * Real.sin theta)

/-- Formed target of a fairy light (App.tsx 438-440): the cone radius at
the sampled height plus 0.3. -/
noncomputable def lightTargetPos (u1 u2 : ℝ) : ℝ × ℝ × ℝ :=
  let h : ℝ := 32
  let rBase : ℝ := 13
  let y := u1 * h - h / 2
  let currentRadius := rBase * (1 - (y + h / 2) / h) + 0.3
  let theta := u2 * Real.pi * 2
  (currentRadius * Real.cos theta, y, currentRadius * Real.sin theta)

/-! ### Hand-openness score

Embeds App.tsx 972-990: the palm-size reference distance and the
openness heuristic of `GestureController.predictWebcam`. -/

structure Landmark where
  x : ℝ
  y : ℝ
  z : ℝ

/-- Euclidean distance between two landmarks (`Math.hypot` of the three
coordinate differences, equally the explicit `Math.sqrt` form used for
the thumb/index distance). -/
noncomputable def landmarkDist (a b : Landmark) : ℝ :=
  Real.sqrt ((a.x - b.x) ^ 2 + (a.y - b.y) ^ 2 + (a.z - b.z) ^ 2)

/-- Palm-size reference distance (App.tsx 974-978):
`Math.hypot(wrist - palmBase) || 1e-6`.  On real numbers the only falsy
value `||` replaces is an exact zero. -/
noncomputable def palmSizeOf (wrist palmBase : Landmark) : ℝ :=
  if landmarkDist wrist palmBase = 0 then 1e-6 else landmarkDist wrist palmBase

/-- Openness score (App.tsx 979-989): the mean wrist-to-fingertip
distance over the four tips 8/12/16/20 divided by the palm size. -/
noncomputable def opennessOf (wrist palmBase t8 t12 t16 t20 : Landmark) : ℝ :=
  ((landmarkDist wrist t8 + landmarkDist wrist t12 +
    landmarkDist wrist t16 + landmarkDist wrist t20) / 4) / palmSizeOf wrist palmBase

/-! ### Photo-ornament population mount

Embeds the guard and entity construction of `PhotoOrnaments`
(App.tsx 218-272): an empty or absent photo list returns `null` before
`useTexture` runs; otherwise `CONFIG.counts.ornaments = 200` entities are
built, entity `i` backed by texture `i % textures.length` (`useTexture`
yields one texture per photo). -/

/-- `CONFIG.counts.ornaments`. -/
def ornamentCount : ℕ := 200

/-- The texture indices of the constructed ornament entities:
`textureIndex: i % textures.length` for `i < count`. -/
def ornamentTextureIndices (nPhotos : ℕ) : List ℕ :=
  (List.range ornamentCount).map fun i => i % nPhotos

/-- Result of mounting `PhotoOrnaments` with the given photo list
(`none` models the `return null` of the guard
`if (!photos || photos.length === 0)`, reached before any texture is
loaded or entity built). -/
def photoOrnamentsEntities (photos : Option (List String)) : Option (List ℕ) :=
  match photos with
  | none => none
  | some ps => if ps.length = 0 then none else some (ornamentTextureIndices ps.length)

/-- Spec-side prefix sum of the selection-loop rank weights: the total
weight `(n - (i+j))` of the first `k` loop positions when the walk starts
at index `i` of a candidate list of length `n`.  At `i = 0` the position
`k` carries weight `n - k`, so `prefixWeightFrom n 0 k` to
`prefixWeightFrom n 0 (k+1)` is the half-open interval of scaled random
values that select rank `k`. -/
def prefixWeightFrom (n i k : ℕ) : ℚ :=
  ∑ j ∈ Finset.range k, ((n : ℚ) - ((i + j : ℕ) : ℚ))

/-! ## Theorems -/

/-- Applying the discrete gesture intent twice with the same label is the
same as applying it once. -/
theorem applyGestureIntent_idem (name : String) (scene : SceneState) :
    applyGestureIntent name (applyGestureIntent name scene) = applyGestureIntent name scene := by
  unfold applyGestureIntent
  split_ifs <;> rfl

/-- C3: a single-frame gesture-label flicker (a frame whose label differs
from the previous frame's label) never changes the scene state, while 3
consecutive frames of a new label with confidence above the 0.35
threshold change the scene state to the label's mapped state exactly
once: it is unchanged after the first two frames, reaches the mapped
state on the third, and stays there on further frames of the label. -/
theorem claim3_gesture_debounce :
    (∀ (name : String) (score : ℚ) (s : GestureDebounceState),
      name ≠ s.lastGesture → (gestureFrame name score s).scene = s.scene) ∧
    (∀ (name : String) (score1 score2 score3 score4 : ℚ) (s : GestureDebounceState),
      name ≠ s.lastGesture →
      score1 > 0.35 → score2 > 0.35 → score3 > 0.35 → score4 > 0.35 →
      (gestureFrame name score1 s).scene = s.scene ∧
      (gestureFrame name score2 (gestureFrame name score1 s)).scene = s.scene ∧
      (gestureFrame name score3 (gestureFrame name score2
        (gestureFrame name score1 s))).scene = applyGestureIntent name s.scene ∧
      (gestureFrame name score4 (gestureFrame name score3 (gestureFrame name score2
        (gestureFrame name score1 s)))).scene = applyGestureIntent name s.scene) := by
  constructor
  · intro name score s h
    simp [gestureFrame, h]
  · intro name score1 score2 score3 score4 s h h1 h2 h3 h4
    have e1 : gestureFrame name score1 s =
        { lastGesture := name, stableCount := 0, scene := s.scene } := by
      simp [gestureFrame, h]
    have e2 : gestureFrame name score2 (gestureFrame name score1 s) =
        { lastGesture := name, stableCount := 1, scene := s.scene } := by
      rw [e1]; simp [gestureFrame]
    have e3 : gestureFrame name score3 (gestureFrame name score2 (gestureFrame name score1 s)) =
        { lastGesture := name, stableCount := 2,
          scene := applyGestureIntent name s.scene } := by
      rw [e2]; simp [gestureFrame, h3]
    refine ⟨by rw [e1], by rw [e2], by rw [e3], ?_⟩
    rw [e3]
    simp [gestureFrame, h4, applyGestureIntent_idem]

/-- C3 witness: a fresh "Closed_Fist" stream at confidence 0.9 over the
initial debouncer state leaves the scene at CHAOS for two frames and
forms the tree on the third. -/
theorem claim3_witness :
    ("Closed_Fist" ≠ ((⟨"", 0, SceneState.CHAOS⟩ : GestureDebounceState)).lastGesture) ∧
    (gestureFrame "Closed_Fist" 0.9 ⟨"", 0, SceneState.CHAOS⟩).scene = SceneState.CHAOS ∧
    (gestureFrame "Closed_Fist" 0.9 (gestureFrame "Closed_Fist" 0.9
      ⟨"", 0, SceneState.CHAOS⟩)).scene = SceneState.CHAOS ∧
    (gestureFrame "Closed_Fist" 0.9 (gestureFrame "Closed_Fist" 0.9 (gestureFrame "Closed_Fist"
      0.9 ⟨"", 0, SceneState.CHAOS⟩))).scene = SceneState.FORMED := by
  have h := claim3_gesture_debounce.2 "Closed_Fist" 0.9 0.9 0.9 0.9
    ⟨"", 0, SceneState.CHAOS⟩
    (by decide) (by norm_num) (by norm_num) (by norm_num) (by norm_num)
  exact ⟨by decide, h.1, h.2.1, h.2.2.1⟩

/-- In the band strictly between the two pinch thresholds, with an empty
label and openness in band, a pinch frame leaves the committed state
unchanged and clears the change counter. -/
theorem pinchFrame_band (score : ℚ) (d : ℚ) (p : PinchState)
    (h1 : pinchDownThreshold < d) (h2 : d < pinchUpThreshold) :
    pinchFrame "" score true d p = ⟨p.pinch, 0⟩ := by
  have hd1 : ¬ (d < pinchDownThreshold) := by linarith
  cases hp : p.pinch <;>
    simp [pinchFrame, hp, hd1, h2]

/-- C2 counterexample: the committed pinch state can drop from true to
false while the thumb/index distance (0.05) stays strictly below the
upper hysteresis threshold (0.098) the whole time: two frames whose
openness score leaves the allowed band commit not-pinching regardless of
distance, so "back to not-pinching only when the distance is at or above
0.098" fails as stated. -/
theorem claim2_counterexample :
    (pinchRun [⟨"", 0, false, 0.05⟩, ⟨"", 0, false, 0.05⟩] ⟨true, 0⟩).pinch = false ∧
    ((0.05 : ℚ) < pinchUpThreshold) ∧
    ((⟨true, 0⟩ : PinchState).pinch = true) := by
  refine ⟨?_, by norm_num [pinchUpThreshold], by decide⟩
  norm_num [pinchRun, pinchFrame, pinchUpThreshold, pinchDownThreshold]
  decide

/-- C2 amended: the committed pinch boolean uses hysteresis on the
thumb/index distance, with the openness-band, confidence and
gesture-label gates also able to force the raw reading off.  (a) It
transitions from not-pinching to pinching only when the distance is below
the lower threshold 0.072 (regardless of the other gates).  (b) Provided
the label is not "Closed_Fist"/"Open_Palm", the confidence gate passes
(empty label or score above 0.5) and the openness score stays in band, it
transitions back to not-pinching only when the distance is at or above
the higher threshold 0.098.  (c) With no blocking label, a change is
committed only after at least 2 consecutive frames agree: a single frame
from a cleared change counter never flips the committed state.  (d) For
any synthetic frame sequence with empty labels, openness in band and
distances oscillating strictly between the two thresholds, the committed
pinch boolean never changes. -/
theorem claim2_amended :
    (∀ (name : String) (score : ℚ) (oOk : Bool) (d : ℚ) (p : PinchState),
      p.pinch = false → (pinchFrame name score oOk d p).pinch = true →
      d < pinchDownThreshold) ∧
    (∀ (name : String) (score : ℚ) (d : ℚ) (p : PinchState),
      p.pinch = true → ¬ (name = "Closed_Fist" ∨ name = "Open_Palm") →
      (name = "" ∨ score > 0.5) →
      (pinchFrame name score true d p).pinch = false →
      pinchUpThreshold ≤ d) ∧
    (∀ (name : String) (score : ℚ) (oOk : Bool) (d : ℚ) (p : PinchState),
      ¬ (name = "Closed_Fist" ∨ name = "Open_Palm") → p.changeStable = 0 →
      (pinchFrame name score oOk d p).pinch = p.pinch) ∧
    (∀ (frames : List PinchFrameInput) (p : PinchState),
      (∀ f ∈ frames, f.name = "" ∧ f.opennessOk = true ∧
        pinchDownThreshold < f.distance ∧ f.distance < pinchUpThreshold) →
      (pinchRun frames p).pinch = p.pinch) := by
  refine ⟨?_, ?_, ?_, ?_⟩
  · intro name score oOk d p hp hstep
    by_contra hlt
    push_neg at hlt
    have hd : ¬ (d < pinchDownThreshold) := by linarith
    simp [pinchFrame, hp, hd] at hstep
  · intro name score d p hp hname hscore hstep
    by_contra hlt
    push_neg at hlt
    have hb1 : (name == "Closed_Fist") = false := by
      simp only [beq_eq_false_iff_ne, ne_eq]
      intro h; exact hname (Or.inl h)
    have hb2 : (name == "Open_Palm") = false := by
      simp only [beq_eq_false_iff_ne, ne_eq]
      intro h; exact hname (Or.inr h)
    rcases hscore with hs | hs
    · simp [pinchFrame, hp, hb1, hb2, hs, hlt] at hstep
    · by_cases hn : name = ""
      · simp [pinchFrame, hp, hb1, hb2, hn, hlt] at hstep
      · have hn2 : (name == "") = false := by
          simp only [beq_eq_false_iff_ne, ne_eq]; exact hn
        simp [pinchFrame, hp, hb1, hb2, hn2, hs, hlt] at hstep
  · intro name score oOk d p hname hcount
    have hb1 : (name == "Closed_Fist") = false := by
      simp only [beq_eq_false_iff_ne, ne_eq]
      intro h; exact hname (Or.inl h)
    have hb2 : (name == "Open_Palm") = false := by
      simp only [beq_eq_false_iff_ne, ne_eq]
      intro h; exact hname (Or.inr h)
    simp only [pinchFrame, hb1, hb2, hcount]
    split_ifs <;> simp_all
  · intro frames
    induction frames with
    | nil => intro p _; rfl
    | cons f rest ih =>
      intro p hband
      have hf := hband f (by simp)
      have hrest : ∀ g ∈ rest, g.name = "" ∧ g.opennessOk = true ∧
          pinchDownThreshold < g.distance ∧ g.distance < pinchUpThreshold := by
        intro g hg; exact hband g (by simp [hg])
      have hstep : pinchFrame f.name f.score f.opennessOk f.distance p = ⟨p.pinch, 0⟩ := by
        rw [hf.1, hf.2.1]
        exact pinchFrame_band f.score f.distance p hf.2.2.1 hf.2.2.2
      show (pinchRun rest (pinchFrame f.name f.score f.opennessOk f.distance p)).pinch = p.pinch
      rw [hstep, ih ⟨p.pinch, 0⟩ hrest]

/-- C2 witness: a concrete false-to-true transition at distance 0.05 (the
committed state flips after two agreeing frames, and the distance is
indeed below the 0.072 lower threshold), and a concrete in-band sequence
at distance 0.085 that leaves the committed state untouched. -/
theorem claim2_witness :
    ((0.05 : ℚ) < pinchDownThreshold) ∧
    ((pinchRun [⟨"", 0, true, 0.05⟩, ⟨"", 0, true, 0.05⟩] ⟨false, 0⟩).pinch = true) ∧
    ((pinchRun [⟨"", 0, true, 0.085⟩, ⟨"", 0, true, 0.085⟩, ⟨"", 0, true, 0.085⟩]
      ⟨false, 0⟩).pinch = (⟨false, 0⟩ : PinchState).pinch) := by
  refine ⟨?_, ?_, ?_⟩
  · exact claim2_amended.1 "" 0 true 0.05
      (pinchFrame "" 0 true 0.05 ⟨false, 0⟩)
      (by norm_num [pinchFrame, pinchDownThreshold]; decide)
      (by norm_num [pinchFrame, pinchDownThreshold, pinchUpThreshold]; decide)
  · norm_num [pinchRun, pinchFrame, pinchUpThreshold, pinchDownThreshold]
    decide
  · exact claim2_amended.2.2.2 [⟨"", 0, true, 0.085⟩, ⟨"", 0, true, 0.085⟩,
      ⟨"", 0, true, 0.085⟩] ⟨false, 0⟩
      (by simp [pinchDownThreshold, pinchUpThreshold]; norm_num)

/-- If a lerp step with factor `t ≠ 0` lands exactly on its start point,
the two endpoints coincide. -/
theorem lerpVec_eq_left {a b : Vec3} {t : ℚ} (ht : t ≠ 0) (h : lerpVec a b t = a) : a = b := by
  obtain ⟨a1, a2, a3⟩ := a
  obtain ⟨b1, b2, b3⟩ := b
  simp only [lerpVec, Vec3.mk.injEq] at h ⊢
  obtain ⟨h1, h2, h3⟩ := h
  refine ⟨?_, ?_, ?_⟩
  · rcases mul_eq_zero.mp (by linarith : (b1 - a1) * t = 0) with h | h
    · linarith
    · exact absurd h ht
  · rcases mul_eq_zero.mp (by linarith : (b2 - a2) * t = 0) with h | h
    · linarith
    · exact absurd h ht
  · rcases mul_eq_zero.mp (by linarith : (b3 - a3) * t = 0) with h | h
    · linarith
    · exact absurd h ht

/-- If a lerp step with factor `t ≠ 1` lands exactly on its target, the
two endpoints coincide. -/
theorem lerpVec_eq_right {a b : Vec3} {t : ℚ} (ht : t ≠ 1) (h : lerpVec a b t = b) : a = b := by
  obtain ⟨a1, a2, a3⟩ := a
  obtain ⟨b1, b2, b3⟩ := b
  simp only [lerpVec, Vec3.mk.injEq] at h ⊢
  obtain ⟨h1, h2, h3⟩ := h
  have ht1 : t - 1 ≠ 0 := fun hc => ht (by linarith)
  refine ⟨?_, ?_, ?_⟩
  · rcases mul_eq_zero.mp (by linarith : (b1 - a1) * (t - 1) = 0) with h | h
    · linarith
    · exact absurd h ht1
  · rcases mul_eq_zero.mp (by linarith : (b2 - a2) * (t - 1) = 0) with h | h
    · linarith
    · exact absurd h ht1
  · rcases mul_eq_zero.mp (by linarith : (b3 - a3) * (t - 1) = 0) with h | h
    · linarith
    · exact absurd h ht1

/-- A lerp step with factor strictly between 0 and 1 from distinct
endpoints lands strictly between them and hits neither endpoint. -/
theorem lerpVec_strict (a b : Vec3) (t : ℚ) (hab : a ≠ b) (h0 : 0 < t) (h1 : t < 1) :
    StrictBetween a b (lerpVec a b t) ∧ lerpVec a b t ≠ a ∧ lerpVec a b t ≠ b := by
  refine ⟨⟨t, h0, h1, rfl⟩, ?_, ?_⟩
  · intro h
    exact hab (lerpVec_eq_left (ne_of_gt h0) h)
  · intro h
    exact hab (lerpVec_eq_right (ne_of_lt h1) h)

/-- C1 counterexample: the interpolation factor `delta * rate` is not
clamped, so the claim fails for a non-negative `deltaTime` of 0.5 s: a
fairy light (rate 2.0) is then lerped with factor exactly 1 and its
current position is set exactly to the active target in one frame, from
a non-trivial distance. -/
theorem claim1_counterexample :
    ((0 : ℚ) ≤ 0.5) ∧
    lightPositionStep true 0.5 ⟨⟨0, 0, 0⟩, ⟨1, 0, 0⟩, ⟨0, 0, 0⟩⟩ = (⟨1, 0, 0⟩ : Vec3) ∧
    activeTarget true ⟨⟨0, 0, 0⟩, ⟨1, 0, 0⟩, ⟨0, 0, 0⟩⟩ = (⟨1, 0, 0⟩ : Vec3) ∧
    ((⟨0, 0, 0⟩ : Vec3) ≠ (⟨1, 0, 0⟩ : Vec3)) ∧
    ¬ StrictBetween ⟨0, 0, 0⟩ ⟨1, 0, 0⟩
      (lightPositionStep true 0.5 ⟨⟨0, 0, 0⟩, ⟨1, 0, 0⟩, ⟨0, 0, 0⟩⟩) := by
  have hstep : lightPositionStep true 0.5 ⟨⟨0, 0, 0⟩, ⟨1, 0, 0⟩, ⟨0, 0, 0⟩⟩ =
      (⟨1, 0, 0⟩ : Vec3) := by
    norm_num [lightPositionStep, activeTarget, lerpVec]
  refine ⟨by norm_num, hstep, by norm_num [activeTarget], by simp, ?_⟩
  rw [hstep]
  rintro ⟨t, ht0, ht1, heq⟩
  have hx := congrArg Vec3.x heq
  simp [lerpVec] at hx
  linarith

/-- C1 amended: for every population (photo ornaments, decorations,
fairy lights) and any frame whose deltaTime keeps the population's
interpolation factor `delta * rate` strictly inside (0, 1), the updated
position lies strictly between the pre-update position and the active
target, reaching neither endpoint.  (The unclamped factor reaches or
overshoots the target once `delta * rate ≥ 1`, and a zero deltaTime
leaves the position unchanged.) -/
theorem claim1_amended :
    (∀ (isFormed : Bool) (delta weight : ℚ) (e : AnimEntity),
      0 < delta * ornamentRate isFormed weight →
      delta * ornamentRate isFormed weight < 1 →
      e.currentPos ≠ activeTarget isFormed e →
      StrictBetween e.currentPos (activeTarget isFormed e)
        (ornamentPositionStep isFormed delta weight e) ∧
      ornamentPositionStep isFormed delta weight e ≠ e.currentPos ∧
      ornamentPositionStep isFormed delta weight e ≠ activeTarget isFormed e) ∧
    (∀ (isFormed : Bool) (delta : ℚ) (e : AnimEntity),
      0 < delta * 1.5 → delta * 1.5 < 1 →
      e.currentPos ≠ activeTarget isFormed e →
      StrictBetween e.currentPos (activeTarget isFormed e)
        (elementPositionStep isFormed delta e) ∧
      elementPositionStep isFormed delta e ≠ e.currentPos ∧
      elementPositionStep isFormed delta e ≠ activeTarget isFormed e) ∧
    (∀ (isFormed : Bool) (delta : ℚ) (e : AnimEntity),
      0 < delta * 2.0 → delta * 2.0 < 1 →
      e.currentPos ≠ activeTarget isFormed e →
      StrictBetween e.currentPos (activeTarget isFormed e)
        (lightPositionStep isFormed delta e) ∧
      lightPositionStep isFormed delta e ≠ e.currentPos ∧
      lightPositionStep isFormed delta e ≠ activeTarget isFormed e) := by
  refine ⟨?_, ?_, ?_⟩
  · intro isFormed delta weight e h0 h1 hne
    exact lerpVec_strict e.currentPos (activeTarget isFormed e)
      (delta * ornamentRate isFormed weight) hne h0 h1
  · intro isFormed delta e h0 h1 hne
    exact lerpVec_strict e.currentPos (activeTarget isFormed e) (delta * 1.5) hne h0 h1
  · intro isFormed delta e h0 h1 hne
    exact lerpVec_strict e.currentPos (activeTarget isFormed e) (delta * 2.0) hne h0 h1

/-- C1 witness: a fairy light stepped with deltaTime 0.25 s (factor 0.5)
moves strictly between its current position and the formed target. -/
theorem claim1_witness :
    ((0 : ℚ) < 0.25 * 2.0) ∧ ((0.25 : ℚ) * 2.0 < 1) ∧
    (StrictBetween (⟨0, 0, 0⟩ : Vec3) (⟨1, 0, 0⟩ : Vec3)
        (lightPositionStep true 0.25 ⟨⟨0, 0, 0⟩, ⟨1, 0, 0⟩, ⟨0, 0, 0⟩⟩) ∧
      lightPositionStep true 0.25 ⟨⟨0, 0, 0⟩, ⟨1, 0, 0⟩, ⟨0, 0, 0⟩⟩ ≠ (⟨0, 0, 0⟩ : Vec3) ∧
      lightPositionStep true 0.25 ⟨⟨0, 0, 0⟩, ⟨1, 0, 0⟩, ⟨0, 0, 0⟩⟩ ≠ (⟨1, 0, 0⟩ : Vec3)) := by
  refine ⟨by norm_num, by norm_num, ?_⟩
  exact claim1_amended.2.2 true 0.25 ⟨⟨0, 0, 0⟩, ⟨1, 0, 0⟩, ⟨0, 0, 0⟩⟩
    (by norm_num) (by norm_num) (by simp [activeTarget])

/-- The spawn guard of `particleFrame` holds exactly when the lightbox
gate is open, the spawn time has arrived and fewer than 8 batches are
live. -/
theorem particleFrame_spawn_iff (isPhotoOpen : Bool) (now : ℚ) (st : ParticleSimState) :
    (isPhotoOpen && decide (st.nextSpawnTime ≤ now) && decide (st.batches.length < 8)) = true ↔
    (isPhotoOpen = true ∧ st.nextSpawnTime ≤ now ∧ st.batches.length < 8) := by
  simp [Bool.and_assoc]

/-- C6 counterexample: with 8 live batches, the ambient gate open and the
spawn time due, the frame leaves the batch list exactly as it was — the
new batch is not spawned and the oldest batch is not evicted, contrary
to the claimed evict-oldest-on-spawn behaviour. -/
theorem claim6_counterexample :
    (particleFrame true 500 ⟨500, 1⟩
      ⟨[⟨0, 1⟩, ⟨1, 1⟩, ⟨2, 1⟩, ⟨3, 1⟩, ⟨4, 1⟩, ⟨5, 1⟩, ⟨6, 1⟩, ⟨7, 1⟩], 400⟩).batches =
      [⟨0, 1⟩, ⟨1, 1⟩, ⟨2, 1⟩, ⟨3, 1⟩, ⟨4, 1⟩, ⟨5, 1⟩, ⟨6, 1⟩, ⟨7, 1⟩] ∧
    (⟨500, 1⟩ : ParticleBatch) ∉ (particleFrame true 500 ⟨500, 1⟩
      ⟨[⟨0, 1⟩, ⟨1, 1⟩, ⟨2, 1⟩, ⟨3, 1⟩, ⟨4, 1⟩, ⟨5, 1⟩, ⟨6, 1⟩, ⟨7, 1⟩], 400⟩).batches ∧
    (⟨0, 1⟩ : ParticleBatch) ∈ (particleFrame true 500 ⟨500, 1⟩
      ⟨[⟨0, 1⟩, ⟨1, 1⟩, ⟨2, 1⟩, ⟨3, 1⟩, ⟨4, 1⟩, ⟨5, 1⟩, ⟨6, 1⟩, ⟨7, 1⟩], 400⟩).batches ∧
    ((400 : ℚ) ≤ 500) := by
  have hb : (particleFrame true 500 ⟨500, 1⟩
      ⟨[⟨0, 1⟩, ⟨1, 1⟩, ⟨2, 1⟩, ⟨3, 1⟩, ⟨4, 1⟩, ⟨5, 1⟩, ⟨6, 1⟩, ⟨7, 1⟩], 400⟩).batches =
      [⟨0, 1⟩, ⟨1, 1⟩, ⟨2, 1⟩, ⟨3, 1⟩, ⟨4, 1⟩, ⟨5, 1⟩, ⟨6, 1⟩, ⟨7, 1⟩] := by
    norm_num [particleFrame, batchAlive]
  refine ⟨hb, ?_, ?_, by norm_num⟩
  · rw [hb]
    intro hmem
    simp only [List.mem_cons, List.not_mem_nil, or_false, ParticleBatch.mk.injEq] at hmem
    rcases hmem with h | h | h | h | h | h | h | h <;> norm_num at h
  · rw [hb]
    simp

/-- C6 amended: in ambient mode a new batch is spawned only on frames
where the lightbox gate holds, the 300 ms re-spawn timer has expired and
fewer than the maximum 8 batches are live; a successful spawn schedules
the next spawn 300 ms later; the live-batch count never exceeds 8; a
batch is removed exactly when `(now - creationTime)/1000` reaches its
lifetime — and at the cap the spawn is skipped entirely, no batch being
evicted for it. -/
theorem claim6_amended :
    (∀ (isPhotoOpen : Bool) (now : ℚ) (newBatch : ParticleBatch) (st : ParticleSimState),
      newBatch ∉ st.batches → (now - newBatch.startTime) / 1000 < newBatch.lifetime →
      (newBatch ∈ (particleFrame isPhotoOpen now newBatch st).batches ↔
        (isPhotoOpen = true ∧ st.nextSpawnTime ≤ now ∧ st.batches.length < 8))) ∧
    (∀ (isPhotoOpen : Bool) (now : ℚ) (newBatch : ParticleBatch) (st : ParticleSimState),
      ∀ b ∈ st.batches,
      (b ∈ (particleFrame isPhotoOpen now newBatch st).batches ↔
        (now - b.startTime) / 1000 < b.lifetime)) ∧
    (∀ (isPhotoOpen : Bool) (now : ℚ) (newBatch : ParticleBatch) (st : ParticleSimState),
      st.batches.length ≤ 8 → (particleFrame isPhotoOpen now newBatch st).batches.length ≤ 8) ∧
    (∀ (isPhotoOpen : Bool) (now : ℚ) (newBatch : ParticleBatch) (st : ParticleSimState),
      (isPhotoOpen = true ∧ st.nextSpawnTime ≤ now ∧ st.batches.length < 8 →
        (particleFrame isPhotoOpen now newBatch st).nextSpawnTime = now + 300) ∧
      (¬ (isPhotoOpen = true ∧ st.nextSpawnTime ≤ now ∧ st.batches.length < 8) →
        (particleFrame isPhotoOpen now newBatch st).nextSpawnTime = st.nextSpawnTime)) := by
  refine ⟨?_, ?_, ?_, ?_⟩
  · intro isPhotoOpen now newBatch st hnb halive
    by_cases hP : isPhotoOpen = true ∧ st.nextSpawnTime ≤ now ∧ st.batches.length < 8
    · have hs := (particleFrame_spawn_iff isPhotoOpen now st).mpr hP
      simp only [particleFrame, hs, if_true]
      simp only [List.mem_filter, List.mem_append, List.mem_singleton]
      constructor
      · intro _
        exact hP
      · intro _
        exact ⟨Or.inr trivial, by simpa [batchAlive] using halive⟩
    · have hs : (isPhotoOpen && decide (st.nextSpawnTime ≤ now) &&
          decide (st.batches.length < 8)) = false := by
        refine Bool.eq_false_iff.mpr fun h => ?_
        exact hP ((particleFrame_spawn_iff isPhotoOpen now st).mp h)
      simp only [particleFrame, hs, Bool.false_eq_true, if_false]
      simp only [List.mem_filter]
      constructor
      · intro h
        exact absurd h.1 hnb
      · intro h
        exact absurd h hP
  · intro isPhotoOpen now newBatch st b hb
    simp only [particleFrame, List.mem_filter]
    constructor
    · intro h
      simpa [batchAlive] using h.2
    · intro h
      refine ⟨?_, by simpa [batchAlive] using h⟩
      split
      · exact List.mem_append_left _ hb
      · exact hb
  · intro isPhotoOpen now newBatch st hlen
    simp only [particleFrame]
    split
    · next hs =>
      have hP := (particleFrame_spawn_iff isPhotoOpen now st).mp hs
      calc ((st.batches ++ [newBatch]).filter (batchAlive now)).length
          ≤ (st.batches ++ [newBatch]).length := List.length_filter_le _ _
        _ = st.batches.length + 1 := by simp
        _ ≤ 8 := hP.2.2
    · calc (st.batches.filter (batchAlive now)).length
          ≤ st.batches.length := List.length_filter_le _ _
        _ ≤ 8 := hlen
  · intro isPhotoOpen now newBatch st
    constructor
    · intro hP
      have hs := (particleFrame_spawn_iff isPhotoOpen now st).mpr hP
      simp [particleFrame, hs]
    · intro hP
      have hs : (isPhotoOpen && decide (st.nextSpawnTime ≤ now) &&
          decide (st.batches.length < 8)) = false := by
        refine Bool.eq_false_iff.mpr fun h => ?_
        exact hP ((particleFrame_spawn_iff isPhotoOpen now st).mp h)
      simp [particleFrame, hs]

/-- C6 witness: below the cap (7 live batches, spawn due at time 500),
the new batch joins the live set, the next spawn is scheduled at 800 ms,
and an expired batch (created at time 0 with a 0.4 s lifetime) is
removed. -/
theorem claim6_witness :
    ((⟨500, 1⟩ : ParticleBatch) ∈ (particleFrame true 500 ⟨500, 1⟩
      ⟨[⟨0, 0.4⟩, ⟨1, 1⟩, ⟨2, 1⟩, ⟨3, 1⟩, ⟨4, 1⟩, ⟨5, 1⟩, ⟨6, 1⟩], 400⟩).batches) ∧
    ((⟨0, 0.4⟩ : ParticleBatch) ∉ (particleFrame true 500 ⟨500, 1⟩
      ⟨[⟨0, 0.4⟩, ⟨1, 1⟩, ⟨2, 1⟩, ⟨3, 1⟩, ⟨4, 1⟩, ⟨5, 1⟩, ⟨6, 1⟩], 400⟩).batches) ∧
    ((particleFrame true 500 ⟨500, 1⟩
      ⟨[⟨0, 0.4⟩, ⟨1, 1⟩, ⟨2, 1⟩, ⟨3, 1⟩, ⟨4, 1⟩, ⟨5, 1⟩, ⟨6, 1⟩], 400⟩).nextSpawnTime = 800) ∧
    ((particleFrame true 500 ⟨500, 1⟩
      ⟨[⟨0, 0.4⟩, ⟨1, 1⟩, ⟨2, 1⟩, ⟨3, 1⟩, ⟨4, 1⟩, ⟨5, 1⟩, ⟨6, 1⟩], 400⟩).batches.length ≤ 8) := by
  refine ⟨?_, ?_, ?_, ?_⟩
  · refine (claim6_amended.1 true 500 ⟨500, 1⟩
      ⟨[⟨0, 0.4⟩, ⟨1, 1⟩, ⟨2, 1⟩, ⟨3, 1⟩, ⟨4, 1⟩, ⟨5, 1⟩, ⟨6, 1⟩], 400⟩
      ?_ (by norm_num)).mpr ⟨rfl, by norm_num, by norm_num⟩
    intro h
    simp only [List.mem_cons, List.not_mem_nil, or_false, ParticleBatch.mk.injEq] at h
    rcases h with h | h | h | h | h | h | h <;> norm_num at h
  · intro hmem
    have h := (claim6_amended.2.1 true 500 ⟨500, 1⟩
      ⟨[⟨0, 0.4⟩, ⟨1, 1⟩, ⟨2, 1⟩, ⟨3, 1⟩, ⟨4, 1⟩, ⟨5, 1⟩, ⟨6, 1⟩], 400⟩
      ⟨0, 0.4⟩ (by simp)).mp hmem
    norm_num at h
  · have h := (claim6_amended.2.2.2 true 500 ⟨500, 1⟩
      ⟨[⟨0, 0.4⟩, ⟨1, 1⟩, ⟨2, 1⟩, ⟨3, 1⟩, ⟨4, 1⟩, ⟨5, 1⟩, ⟨6, 1⟩], 400⟩).1
      ⟨rfl, by norm_num, by norm_num⟩
    rw [h]
    norm_num
  · exact claim6_amended.2.2.1 true 500 ⟨500, 1⟩
      ⟨[⟨0, 0.4⟩, ⟨1, 1⟩, ⟨2, 1⟩, ⟨3, 1⟩, ⟨4, 1⟩, ⟨5, 1⟩, ⟨6, 1⟩], 400⟩ (by norm_num)

/-- C8: mounting the photo-ornament population with an absent or empty
photo list renders nothing — no textures are loaded and no entities are
constructed — and this is exactly the guarded case: with a non-empty
list, the population of 200 entities is built, entity `i` backed by
photo `i % photos.length`. -/
theorem claim8_empty_photos :
    (∀ photos : Option (List String),
      photoOrnamentsEntities photos = none ↔ (photos = none ∨ photos = some [])) ∧
    (∀ ps : List String, ps ≠ [] →
      photoOrnamentsEntities (some ps) = some (ornamentTextureIndices ps.length) ∧
      (ornamentTextureIndices ps.length).length = ornamentCount) := by
  constructor
  · intro photos
    rcases photos with _ | ps
    · simp [photoOrnamentsEntities]
    · rcases ps with _ | ⟨a, t⟩ <;> simp [photoOrnamentsEntities]
  · intro ps hps
    have hlen : ps.length ≠ 0 := by
      simpa [List.length_eq_zero] using hps
    constructor
    · simp [photoOrnamentsEntities, hlen]
    · simp [ornamentTextureIndices]

/-- C8 witness: concrete instances of the three cases (absent list, empty
list, singleton list). -/
theorem claim8_witness :
    photoOrnamentsEntities none = none ∧
    photoOrnamentsEntities (some []) = none ∧
    photoOrnamentsEntities (some ["p"]) = some (ornamentTextureIndices 1) ∧
    (ornamentTextureIndices (["p"] : List String).length).length = ornamentCount := by
  refine ⟨(claim8_empty_photos.1 none).mpr (Or.inl rfl),
    (claim8_empty_photos.1 (some [])).mpr (Or.inr rfl),
    (claim8_empty_photos.2 ["p"] (by simp)).1,
    (claim8_empty_photos.2 ["p"] (by simp)).2⟩

/-- The weighted-selection loop returns either its default or an element
of the candidate list. -/
theorem pickWeightedAux_mem (len : ℕ) (d : PhotoCandidate) :
    ∀ (cs : List PhotoCandidate) (i : ℕ) (rv : ℚ),
      pickWeightedAux len d cs i rv = d ∨ pickWeightedAux len d cs i rv ∈ cs := by
  intro cs
  induction cs with
  | nil => intro i rv; exact Or.inl rfl
  | cons c rest ih =>
    intro i rv
    simp only [pickWeightedAux]
    split_ifs with h
    · exact Or.inr (List.mem_cons_self c rest)
    · rcases ih (i + 1) (rv - ((len : ℚ) - (i : ℚ))) with h2 | h2
      · exact Or.inl h2
      · exact Or.inr (List.mem_cons_of_mem c h2)

/-- On a non-empty candidate list the weighted selection succeeds and
picks a candidate. -/
theorem pickWeighted_some (candidates : List PhotoCandidate) (rand : ℚ)
    (h : candidates ≠ []) :
    ∃ sel, pickWeighted candidates rand = some sel ∧ sel ∈ candidates := by
  match candidates, h with
  | c0 :: rest, _ =>
    refine ⟨_, rfl, ?_⟩
    rcases pickWeightedAux_mem (c0 :: rest).length c0 (c0 :: rest) 0
      (rand * (totalWeightOf (c0 :: rest).length : ℚ)) with h2 | h2
    · rw [h2]; exact List.mem_cons_self _ _
    · exact h2

/-- The candidate-record list has one entry per scene-graph child. -/
theorem photoDistanceList_length (distances : List ℚ) (nPhotos : ℕ) :
    (photoDistanceList distances nPhotos).length = distances.length := by
  simp [photoDistanceList]

/-- The nearest-5 list is non-empty whenever the population is. -/
theorem nearestPhotoList_ne_nil (distances : List ℚ) (nPhotos : ℕ) (h : distances ≠ []) :
    nearestPhotoList distances nPhotos ≠ [] := by
  have hd : 0 < distances.length := List.length_pos.mpr h
  intro hc
  rcases List.take_eq_nil_iff.mp hc with h1 | h1
  · have h5 : min 5 (photoDistanceList distances nPhotos).length = 0 := h1
    rw [photoDistanceList_length] at h5
    rcases Nat.min_eq_zero_iff.mp h5 with h2 | h2 <;> omega
  · have hperm := List.mergeSort_perm (photoDistanceList distances nPhotos)
      fun a b => decide (a.distance ≤ b.distance)
    rw [sortByDistance] at h1
    rw [h1] at hperm
    have h2 : photoDistanceList distances nPhotos = [] := hperm.symm.eq_nil
    have h3 := congrArg List.length h2
    rw [photoDistanceList_length, List.length_nil] at h3
    omega

/-- The filtered-or-fallback candidate list is non-empty whenever the
nearest list is. -/
theorem candidatePhotoList_ne_nil (nearest : List PhotoCandidate) (recent : List ℕ)
    (h : nearest ≠ []) : candidatePhotoList nearest recent ≠ [] := by
  unfold candidatePhotoList
  split_ifs with hf
  · exact h
  · intro hc
    rw [hc] at hf
    exact hf rfl

/-- If the pinch-to-open guard does not hold, a frame never changes
`isLightboxOpen`. -/
theorem experienceFrame_isOpen_stable (now : ℚ) (isPinching : Bool) (distances : List ℚ)
    (nPhotos : ℕ) (rand : ℚ) (st : ExperienceState)
    (hC : ¬ (st.pinchCooldownUntil ≤ now ∧ isPinching = true ∧ st.isLightboxOpen = false ∧
      st.hasPinched = false)) :
    (experienceFrame now isPinching distances nPhotos rand st).isLightboxOpen =
      st.isLightboxOpen := by
  simp only [experienceFrame, if_neg hC]
  by_cases hp : isPinching = false
  · simp only [if_pos hp]
    by_cases hq : st.isLightboxOpen = true ∧ st.fadeOutTimer = none
    · simp [if_pos hq]
    · simp [if_neg hq]
  · simp [hp]

/-- A closed lightbox opens on a frame exactly when the cooldown has
elapsed, the pinch intent is true and the has-pinched latch is clear. -/
theorem experienceFrame_isOpen_iff (now : ℚ) (isPinching : Bool) (distances : List ℚ)
    (nPhotos : ℕ) (rand : ℚ) (st : ExperienceState)
    (hne : distances ≠ []) (hclosed : st.isLightboxOpen = false) :
    ((experienceFrame now isPinching distances nPhotos rand st).isLightboxOpen = true ↔
      (st.pinchCooldownUntil ≤ now ∧ isPinching = true ∧ st.hasPinched = false)) := by
  by_cases hC : st.pinchCooldownUntil ≤ now ∧ isPinching = true ∧ st.isLightboxOpen = false ∧
      st.hasPinched = false
  · obtain ⟨sel, hsel, -⟩ := pickWeighted_some _ rand
      (candidatePhotoList_ne_nil _ st.recentlyViewed (nearestPhotoList_ne_nil distances nPhotos hne))
    have hres : (experienceFrame now isPinching distances nPhotos rand st).isLightboxOpen =
        true := by
      simp only [experienceFrame, if_pos hC, hsel]
      simp [hC.2.1]
    rw [hres]
    simp [hC.1, hC.2.1, hC.2.2.2]
  · rw [experienceFrame_isOpen_stable now isPinching distances nPhotos rand st hC, hclosed]
    constructor
    · intro h
      exact absurd h (by simp)
    · intro h
      exact absurd ⟨h.1, h.2.1, hclosed, h.2.2⟩ hC

/-- C4: after a scene-state toggle at time `toggleTime`, a closed
lightbox transitions to open on a frame at time `now` if and only if all
of: the ~650 ms cooldown armed by the toggle has elapsed
(`toggleTime + 650 ≤ now`), the debounced pinch intent is true, and the
per-pinch has-pinched latch is clear.  (The lightbox being closed is the
third of the four claimed conditions; it enters as the hypothesis.) -/
theorem claim4_open_trigger (toggleTime now : ℚ) (isPinching : Bool) (distances : List ℚ)
    (nPhotos : ℕ) (rand : ℚ) (st : ExperienceState)
    (hne : distances ≠ []) (hclosed : st.isLightboxOpen = false) :
    ((experienceFrame now isPinching distances nPhotos rand
        (experienceSceneToggle toggleTime st)).isLightboxOpen = true ↔
      (toggleTime + 650 ≤ now ∧ isPinching = true ∧ st.hasPinched = false)) :=
  experienceFrame_isOpen_iff now isPinching distances nPhotos rand
    (experienceSceneToggle toggleTime st) hne hclosed

/-- C4 witness: with a toggle at time 0, a stable pinch 700 ms later over
a two-entity population opens the closed lightbox; the same pinch 600 ms
after the toggle does not. -/
theorem claim4_witness :
    (([(1 : ℚ), 2] : List ℚ) ≠ []) ∧
    ((experienceMount 0).isLightboxOpen = false) ∧
    ((experienceFrame 700 true [1, 2] 3 0
        (experienceSceneToggle 0 (experienceMount 0))).isLightboxOpen = true) ∧
    ((experienceFrame 600 true [1, 2] 3 0
        (experienceSceneToggle 0 (experienceMount 0))).isLightboxOpen ≠ true) := by
  refine ⟨by simp, rfl, ?_, ?_⟩
  · exact (claim4_open_trigger 0 700 true [1, 2] 3 0 (experienceMount 0)
      (by simp) rfl).mpr ⟨by norm_num, rfl, rfl⟩
  · intro hopen
    have h := (claim4_open_trigger 0 600 true [1, 2] 3 0 (experienceMount 0)
      (by simp) rfl).mp hopen
    norm_num at h

/-- C10: the cooldown is armed at mount, not only after scene toggles:
within 650 ms of the `Experience` mount, no frame can open the lightbox,
whatever the pinch intent; once the 650 ms window has passed, a pinch
frame over a non-empty population does open it. -/
theorem claim10_mount_cooldown :
    (∀ (mountTime now : ℚ) (isPinching : Bool) (distances : List ℚ) (nPhotos : ℕ) (rand : ℚ),
      now < mountTime + 650 →
      (experienceFrame now isPinching distances nPhotos rand
        (experienceMount mountTime)).isLightboxOpen = false) ∧
    (∀ (mountTime now : ℚ) (distances : List ℚ) (nPhotos : ℕ) (rand : ℚ),
      distances ≠ [] → mountTime + 650 ≤ now →
      (experienceFrame now true distances nPhotos rand
        (experienceMount mountTime)).isLightboxOpen = true) := by
  constructor
  · intro mountTime now isPinching distances nPhotos rand hnow
    rw [experienceFrame_isOpen_stable now isPinching distances nPhotos rand
      (experienceMount mountTime) ?_]
    · rfl
    · intro hC
      have : mountTime + 650 ≤ now := hC.1
      linarith
  · intro mountTime now distances nPhotos rand hne h650
    exact (experienceFrame_isOpen_iff now true distances nPhotos rand
      (experienceMount mountTime) hne rfl).mpr ⟨h650, rfl, rfl⟩

/-- C10 witness: a pinch 100 ms after a session starting at time 0 cannot
open the lightbox; the same pinch at 650 ms can. -/
theorem claim10_witness :
    ((100 : ℚ) < 0 + 650) ∧
    ((experienceFrame 100 true [1] 1 0 (experienceMount 0)).isLightboxOpen = false) ∧
    ((experienceFrame 650 true [1] 1 0 (experienceMount 0)).isLightboxOpen = true) := by
  refine ⟨by norm_num, ?_, ?_⟩
  · exact claim10_mount_cooldown.1 0 100 true [1] 1 0 (by norm_num)
  · exact claim10_mount_cooldown.2 0 650 [1] 1 0 (by simp) (by norm_num)

/-- C9 counterexample: the JS guard `|| 1e-6` replaces only an exact
zero, it is not a floor: for a wrist/palm-base pair at distance 1e-7 the
divisor is 1e-7 itself, strictly below the claimed 1e-6 floor. -/
theorem claim9_counterexample :
    palmSizeOf ⟨0, 0, 0⟩ ⟨1e-7, 0, 0⟩ = 1e-7 ∧
    ¬ ((1e-6 : ℝ) ≤ palmSizeOf ⟨0, 0, 0⟩ ⟨1e-7, 0, 0⟩) := by
  have hd : landmarkDist ⟨0, 0, 0⟩ ⟨1e-7, 0, 0⟩ = 1e-7 := by
    unfold landmarkDist
    rw [show ((0 : ℝ) - 1e-7) ^ 2 + ((0 : ℝ) - 0) ^ 2 + ((0 : ℝ) - 0) ^ 2 = (1e-7 : ℝ) ^ 2 by
      ring]
    exact Real.sqrt_sq (by norm_num)
  have hps : palmSizeOf ⟨0, 0, 0⟩ ⟨1e-7, 0, 0⟩ = 1e-7 := by
    unfold palmSizeOf
    rw [hd]
    norm_num
  exact ⟨hps, by rw [hps]; norm_num⟩

/-- C9 amended: the openness computation is total, but the divisor is not
floored at 1e-6 — it is the wrist/palm-base distance itself whenever that
distance is nonzero (however small), and 1e-6 exactly when it is zero
(coincident landmarks).  In every case the divisor is strictly positive,
so the openness value is a well-defined real and pinch detection never
divides by zero: openness times the divisor recovers the mean fingertip
distance. -/
theorem claim9_amended :
    ∀ wrist palmBase t8 t12 t16 t20 : Landmark,
      0 < palmSizeOf wrist palmBase ∧
      (landmarkDist wrist palmBase = 0 → palmSizeOf wrist palmBase = 1e-6) ∧
      (landmarkDist wrist palmBase ≠ 0 →
        palmSizeOf wrist palmBase = landmarkDist wrist palmBase) ∧
      opennessOf wrist palmBase t8 t12 t16 t20 * palmSizeOf wrist palmBase =
        (landmarkDist wrist t8 + landmarkDist wrist t12 + landmarkDist wrist t16 +
          landmarkDist wrist t20) / 4 := by
  intro wrist palmBase t8 t12 t16 t20
  have hnn : 0 ≤ landmarkDist wrist palmBase := Real.sqrt_nonneg _
  have hpos : 0 < palmSizeOf wrist palmBase := by
    unfold palmSizeOf
    split_ifs with h
    · norm_num
    · exact lt_of_le_of_ne hnn (Ne.symm h)
  refine ⟨hpos, ?_, ?_, ?_⟩
  · intro h
    unfold palmSizeOf
    simp [h]
  · intro h
    unfold palmSizeOf
    simp [h]
  · unfold opennessOf
    exact div_mul_cancel₀ _ (ne_of_gt hpos)

/-- C9 witness: coincident wrist and palm-base landmarks give the 1e-6
fallback divisor, which is positive. -/
theorem claim9_witness :
    0 < palmSizeOf ⟨0, 0, 0⟩ ⟨0, 0, 0⟩ ∧ palmSizeOf ⟨0, 0, 0⟩ ⟨0, 0, 0⟩ = 1e-6 := by
  have hz : landmarkDist ⟨0, 0, 0⟩ ⟨0, 0, 0⟩ = 0 := by
    unfold landmarkDist
    norm_num
  exact ⟨(claim9_amended ⟨0, 0, 0⟩ ⟨0, 0, 0⟩ ⟨0, 0, 0⟩ ⟨0, 0, 0⟩ ⟨0, 0, 0⟩ ⟨0, 0, 0⟩).1,
    (claim9_amended ⟨0, 0, 0⟩ ⟨0, 0, 0⟩ ⟨0, 0, 0⟩ ⟨0, 0, 0⟩ ⟨0, 0, 0⟩ ⟨0, 0, 0⟩).2.1 hz⟩

/-- C7 counterexample: a photo ornament generated at mid-height with
angle draw 0 sits at horizontal radial distance 7 from the axis, strictly
beyond the cone's local radius 13/2 at that height — its radial distance
is the offset surface radius itself, not a value sampled in
[0, localRadius]. -/
theorem claim7_counterexample :
    ornamentTargetPos (1 / 2) 0 = ((7 : ℝ), 0, 0) ∧
    coneLocalRadius 0 = 13 / 2 ∧
    ¬ ((7 : ℝ) ≤ coneLocalRadius 0) := by
  refine ⟨?_, by norm_num [coneLocalRadius], by norm_num [coneLocalRadius]⟩
  simp only [ornamentTargetPos]
  norm_num [Real.cos_zero, Real.sin_zero]

/-- C7 amended: every formed-layout position follows the conical scheme
with uniform height `y = u·h − h/2 ∈ [−16, 16)` and a point
`(r·cos θ, y, r·sin θ)` at angle `θ = u·2π`, but the radial distance `r`
differs per population: `getTreePosition` (foliage) samples
`r = u₃ · localRadius ∈ [0, localRadius]` with
`localRadius = 13·(1 − (y+16)/32)`; photo ornaments sit exactly at
`localRadius + 0.5`, fairy lights exactly at `localRadius + 0.3` (additive
offsets, no radial sampling), and Christmas elements exactly at
`localRadius · 0.95` (a multiplicative, not additive, offset). -/
theorem claim7_amended :
    (∀ u1 u2 u3 : ℝ, 0 ≤ u1 → u1 < 1 → 0 ≤ u3 → u3 ≤ 1 →
      (getTreePosition u1 u2 u3).2.1 = u1 * 32 - 16 ∧
      -16 ≤ (getTreePosition u1 u2 u3).2.1 ∧ (getTreePosition u1 u2 u3).2.1 < 16 ∧
      (getTreePosition u1 u2 u3).1 ^ 2 + (getTreePosition u1 u2 u3).2.2 ^ 2 =
        (u3 * coneLocalRadius ((getTreePosition u1 u2 u3).2.1)) ^ 2 ∧
      0 ≤ u3 * coneLocalRadius ((getTreePosition u1 u2 u3).2.1) ∧
      u3 * coneLocalRadius ((getTreePosition u1 u2 u3).2.1) ≤
        coneLocalRadius ((getTreePosition u1 u2 u3).2.1)) ∧
    (∀ u1 u2 : ℝ,
      (ornamentTargetPos u1 u2).2.1 = u1 * 32 - 16 ∧
      (ornamentTargetPos u1 u2).1 ^ 2 + (ornamentTargetPos u1 u2).2.2 ^ 2 =
        (coneLocalRadius ((ornamentTargetPos u1 u2).2.1) + 0.5) ^ 2) ∧
    (∀ u1 u2 : ℝ,
      (lightTargetPos u1 u2).2.1 = u1 * 32 - 16 ∧
      (lightTargetPos u1 u2).1 ^ 2 + (lightTargetPos u1 u2).2.2 ^ 2 =
        (coneLocalRadius ((lightTargetPos u1 u2).2.1) + 0.3) ^ 2) ∧
    (∀ u1 u2 : ℝ,
      (elementTargetPos u1 u2).2.1 = u1 * 32 - 16 ∧
      (elementTargetPos u1 u2).1 ^ 2 + (elementTargetPos u1 u2).2.2 ^ 2 =
        (coneLocalRadius ((elementTargetPos u1 u2).2.1) * 0.95) ^ 2) := by
  have key : ∀ r θ : ℝ, (r * Real.cos θ) ^ 2 + (r * Real.sin θ) ^ 2 = r ^ 2 := by
    intro r θ
    rw [mul_pow, mul_pow, ← mul_add, Real.cos_sq_add_sin_sq, mul_one]
  refine ⟨?_, ?_, ?_, ?_⟩
  · intro u1 u2 u3 h0 h1 h30 h31
    simp only [getTreePosition, coneLocalRadius]
    have hLR : (0 : ℝ) ≤ 13 * (1 - (u1 * 32 - 32 / 2 + 32 / 2) / 32) := by nlinarith
    refine ⟨by norm_num, by nlinarith, by nlinarith, ?_, ?_, ?_⟩
    · rw [key]
    · exact mul_nonneg h30 hLR
    · exact mul_le_of_le_one_left hLR h31
  · intro u1 u2
    simp only [ornamentTargetPos, coneLocalRadius]
    refine ⟨by norm_num, ?_⟩
    rw [key]
  · intro u1 u2
    simp only [lightTargetPos, coneLocalRadius]
    refine ⟨by norm_num, ?_⟩
    rw [key]
  · intro u1 u2
    simp only [elementTargetPos, coneLocalRadius]
    refine ⟨by norm_num, ?_⟩
    rw [key]

/-- C7 witness: the foliage generator at draws (1/2, 0, 1/2) produces
height 0 and a radial distance 13/4 within the local radius 13/2. -/
theorem claim7_witness :
    ((0 : ℝ) ≤ 1 / 2) ∧ ((1 / 2 : ℝ) < 1) ∧
    ((getTreePosition (1 / 2) 0 (1 / 2)).2.1 = (1 / 2 : ℝ) * 32 - 16 ∧
      -16 ≤ (getTreePosition (1 / 2) 0 (1 / 2)).2.1 ∧
      (getTreePosition (1 / 2) 0 (1 / 2)).2.1 < 16 ∧
      (getTreePosition (1 / 2) 0 (1 / 2)).1 ^ 2 + (getTreePosition (1 / 2) 0 (1 / 2)).2.2 ^ 2 =
        ((1 / 2 : ℝ) * coneLocalRadius ((getTreePosition (1 / 2) 0 (1 / 2)).2.1)) ^ 2 ∧
      0 ≤ (1 / 2 : ℝ) * coneLocalRadius ((getTreePosition (1 / 2) 0 (1 / 2)).2.1) ∧
      (1 / 2 : ℝ) * coneLocalRadius ((getTreePosition (1 / 2) 0 (1 / 2)).2.1) ≤
        coneLocalRadius ((getTreePosition (1 / 2) 0 (1 / 2)).2.1)) := by
  exact ⟨by norm_num, by norm_num,
    claim7_amended.1 (1 / 2) 0 (1 / 2) (by norm_num) (by norm_num) (by norm_num) (by norm_num)⟩

/-- Empty prefix of rank weights. -/
theorem prefixWeightFrom_zero (n i : ℕ) : prefixWeightFrom n i 0 = 0 := by
  simp [prefixWeightFrom]

/-- Peeling the first rank weight off a prefix sum. -/
theorem prefixWeightFrom_succ (n i k : ℕ) :
    prefixWeightFrom n i (k + 1) = ((n : ℚ) - (i : ℚ)) + prefixWeightFrom n (i + 1) k := by
  rw [prefixWeightFrom, Finset.sum_range_succ', prefixWeightFrom]
  have h1 : ∀ j ∈ Finset.range k, ((n : ℚ) - ((i + (j + 1) : ℕ) : ℚ)) =
      ((n : ℚ) - (((i + 1) + j : ℕ) : ℚ)) := by
    intro j _
    push_cast
    ring
  rw [Finset.sum_congr rfl h1]
  push_cast
  ring

/-- Rank-weight prefix sums are non-negative while the walk stays inside
the list. -/
theorem prefixWeightFrom_nonneg (n i k : ℕ) (h : i + k ≤ n) :
    0 ≤ prefixWeightFrom n i k := by
  apply Finset.sum_nonneg
  intro j hj
  have hj2 : j < k := Finset.mem_range.mp hj
  have hle : ((i + j : ℕ) : ℚ) ≤ (n : ℚ) := by
    exact_mod_cast by omega
  linarith

/-- Correctness of the weighted-selection loop: when the scaled random
value lands in the `k`-th rank-weight interval, the loop returns the
candidate at rank `k`. -/
theorem pickWeightedAux_eq_get (len : ℕ) (d : PhotoCandidate) :
    ∀ (cs : List PhotoCandidate) (i : ℕ) (rv : ℚ) (k : ℕ) (hk : k < cs.length),
      i + cs.length = len →
      prefixWeightFrom len i k < rv → rv ≤ prefixWeightFrom len i (k + 1) →
      pickWeightedAux len d cs i rv = cs.get ⟨k, hk⟩ := by
  intro cs
  induction cs with
  | nil =>
    intro i rv k hk
    exact absurd hk (by simp)
  | cons c rest ih =>
    intro i rv k hk hlen hlow hhigh
    match k with
    | 0 =>
      have hhigh0 : rv ≤ (len : ℚ) - (i : ℚ) := by
        rw [prefixWeightFrom_succ, prefixWeightFrom_zero] at hhigh
        linarith
      simp only [pickWeightedAux]
      rw [if_pos (by linarith)]
      rfl
    | k' + 1 =>
      have hlenc : (c :: rest).length = rest.length + 1 := rfl
      have hlen' : (i + 1) + rest.length = len := by omega
      have hk' : k' < rest.length := by
        rw [hlenc] at hk
        omega
      have hpos : 0 ≤ prefixWeightFrom len (i + 1) k' :=
        prefixWeightFrom_nonneg len (i + 1) k' (by omega)
      have hs := prefixWeightFrom_succ len i k'
      have hs2 := prefixWeightFrom_succ len i (k' + 1)
      have hlow1 : (len : ℚ) - (i : ℚ) < rv := by
        rw [hs] at hlow
        linarith
      simp only [pickWeightedAux]
      rw [if_neg (by linarith)]
      have hrec := ih (i + 1) (rv - ((len : ℚ) - (i : ℚ))) k' hk' hlen'
        (by rw [hs] at hlow; linarith) (by rw [hs2] at hhigh; linarith)
      exact hrec

/-- The distance sort really sorts: the result is pairwise ordered by
distance. -/
theorem sortByDistance_sorted (l : List PhotoCandidate) :
    (sortByDistance l).Pairwise fun a b => a.distance ≤ b.distance := by
  have htrans : ∀ a b c : PhotoCandidate, decide (a.distance ≤ b.distance) = true →
      decide (b.distance ≤ c.distance) = true → decide (a.distance ≤ c.distance) = true := by
    intro a b c hab hbc
    simp only [decide_eq_true_eq] at *
    exact le_trans hab hbc
  have htotal : ∀ a b : PhotoCandidate, (decide (a.distance ≤ b.distance) ||
      decide (b.distance ≤ a.distance)) = true := by
    intro a b
    simp only [Bool.or_eq_true, decide_eq_true_eq]
    exact le_total a.distance b.distance
  have h := List.sorted_mergeSort htrans htotal l
  exact h.imp (by intro a b hab; simpa using hab)

/-- In a distance-sorted list, every element of a prefix is at most every
element of the corresponding suffix. -/
theorem sorted_take_drop {l : List PhotoCandidate}
    (hp : l.Pairwise fun a b => a.distance ≤ b.distance) (k : ℕ) :
    ∀ x ∈ l.take k, ∀ y ∈ l.drop k, x.distance ≤ y.distance := by
  intro x hx y hy
  have hsplit : l = l.take k ++ l.drop k := (List.take_append_drop k l).symm
  rw [hsplit] at hp
  exact (List.pairwise_append.mp hp).2.2 x hx y hy

/-- Characterisation of the weighted pick on the whole candidate list:
the candidate at rank `k` is selected exactly on its rank-weight
interval. -/
theorem pickWeighted_eq_get (cands : List PhotoCandidate) (rand : ℚ) (sel : PhotoCandidate)
    (hsel : pickWeighted cands rand = some sel) (k : ℕ) (hk : k < cands.length)
    (hlow : prefixWeightFrom cands.length 0 k < rand * (totalWeightOf cands.length : ℚ))
    (hhigh : rand * (totalWeightOf cands.length : ℚ) ≤
      prefixWeightFrom cands.length 0 (k + 1)) :
    sel = cands.get ⟨k, hk⟩ := by
  rcases cands with _ | ⟨c0, rest⟩
  · exact absurd hk (by simp)
  · simp only [pickWeighted, Option.some.injEq] at hsel
    rw [← hsel]
    exact pickWeightedAux_eq_get (c0 :: rest).length c0 (c0 :: rest) 0
      (rand * (totalWeightOf (c0 :: rest).length : ℚ)) k hk (Nat.zero_add _) hlow hhigh

/-- C5: when a pinch-to-open fires over a non-empty photo-ornament
population, the selected candidate comes from the recently-viewed-filtered
nearest-5 set (falling back to the unfiltered nearest-5 only when the
filter empties it); the chosen index is pushed on the recently-viewed
FIFO, whose length stays at most 10; the nearest-5 set consists of the
closest entities by camera distance; and the weighted choice obeys the
rank rule: rank `k` (0 = nearest) is selected exactly when the scaled
random value lands in its weight-`(N − k)` interval, so nearer candidates
are proportionally likelier but not guaranteed. -/
theorem claim5_photo_selection (now : ℚ) (isPinching : Bool) (distances : List ℚ)
    (nPhotos : ℕ) (rand : ℚ) (st : ExperienceState)
    (hne : distances ≠ [])
    (hopen : st.pinchCooldownUntil ≤ now ∧ isPinching = true ∧ st.isLightboxOpen = false ∧
      st.hasPinched = false) :
    ∃ sel, pickWeighted (candidatePhotoList (nearestPhotoList distances nPhotos)
        st.recentlyViewed) rand = some sel ∧
      (experienceFrame now isPinching distances nPhotos rand st).lightboxPhotoIndex =
        some sel.textureIndex ∧
      (experienceFrame now isPinching distances nPhotos rand st).recentlyViewed =
        pushRecent st.recentlyViewed sel.textureIndex ∧
      sel ∈ candidatePhotoList (nearestPhotoList distances nPhotos) st.recentlyViewed ∧
      ((∃ c ∈ nearestPhotoList distances nPhotos, c.textureIndex ∉ st.recentlyViewed) →
        sel.textureIndex ∉ st.recentlyViewed) ∧
      (st.recentlyViewed.length ≤ 10 →
        (pushRecent st.recentlyViewed sel.textureIndex).length ≤ 10) ∧
      (sortByDistance (photoDistanceList distances nPhotos)).Perm
        (photoDistanceList distances nPhotos) ∧
      (∀ x ∈ nearestPhotoList distances nPhotos,
        ∀ y ∈ (sortByDistance (photoDistanceList distances nPhotos)).drop
          (min 5 (photoDistanceList distances nPhotos).length), x.distance ≤ y.distance) ∧
      (nearestPhotoList distances nPhotos).length = min 5 distances.length ∧
      (∀ (k : ℕ) (hk : k < (candidatePhotoList (nearestPhotoList distances nPhotos)
          st.recentlyViewed).length),
        prefixWeightFrom (candidatePhotoList (nearestPhotoList distances nPhotos)
          st.recentlyViewed).length 0 k <
          rand * (totalWeightOf (candidatePhotoList (nearestPhotoList distances nPhotos)
            st.recentlyViewed).length : ℚ) →
        rand * (totalWeightOf (candidatePhotoList (nearestPhotoList distances nPhotos)
          st.recentlyViewed).length : ℚ) ≤
          prefixWeightFrom (candidatePhotoList (nearestPhotoList distances nPhotos)
            st.recentlyViewed).length 0 (k + 1) →
        sel = (candidatePhotoList (nearestPhotoList distances nPhotos)
          st.recentlyViewed).get ⟨k, hk⟩) := by
  have hnear := nearestPhotoList_ne_nil distances nPhotos hne
  have hcand := candidatePhotoList_ne_nil (nearestPhotoList distances nPhotos)
    st.recentlyViewed hnear
  obtain ⟨sel, hsel, hmem⟩ := pickWeighted_some _ rand hcand
  refine ⟨sel, hsel, ?_, ?_, hmem, ?_, ?_, ?_, ?_, ?_, ?_⟩
  · simp only [experienceFrame, hsel, hopen.2.1]
    simp [hopen.1, hopen.2.2.1, hopen.2.2.2]
  · simp only [experienceFrame, hsel, hopen.2.1]
    simp [hopen.1, hopen.2.2.1, hopen.2.2.2]
  · rintro ⟨c, hcmem, hcnot⟩
    have hcfil : c ∈ (nearestPhotoList distances nPhotos).filter
        (fun x => !(st.recentlyViewed.contains x.textureIndex)) := by
      rw [List.mem_filter]
      exact ⟨hcmem, by simpa using hcnot⟩
    have hflen : ((nearestPhotoList distances nPhotos).filter
        (fun x => !(st.recentlyViewed.contains x.textureIndex))).length ≠ 0 := by
      intro h0
      rw [List.length_eq_zero] at h0
      rw [h0] at hcfil
      exact List.not_mem_nil c hcfil
    have hcand_eq : candidatePhotoList (nearestPhotoList distances nPhotos)
        st.recentlyViewed = (nearestPhotoList distances nPhotos).filter
          (fun x => !(st.recentlyViewed.contains x.textureIndex)) := by
      unfold candidatePhotoList
      rw [if_neg hflen]
    rw [hcand_eq] at hmem
    have hsel2 := (List.mem_filter.mp hmem).2
    simpa using hsel2
  · intro hlen
    unfold pushRecent
    split_ifs with hgt
    · simp only [List.length_tail, List.length_append, List.length_singleton]
      omega
    · simp only [List.length_append, List.length_singleton] at hgt ⊢
      omega
  · exact List.mergeSort_perm _ _
  · intro x hx y hy
    exact sorted_take_drop (sortByDistance_sorted (photoDistanceList distances nPhotos))
      (min 5 (photoDistanceList distances nPhotos).length) x hx y hy
  · have h1 : (nearestPhotoList distances nPhotos).length =
        min (min 5 (photoDistanceList distances nPhotos).length)
          (sortByDistance (photoDistanceList distances nPhotos)).length := by
      simp [nearestPhotoList, List.length_take]
    have h2 : (sortByDistance (photoDistanceList distances nPhotos)).length =
        distances.length := by
      simp [sortByDistance, photoDistanceList_length]
    rw [h1, h2, photoDistanceList_length]
    omega
  · intro k hk hlow hhigh
    exact pickWeighted_eq_get _ rand sel hsel k hk hlow hhigh

/-- C5 witness: a concrete pinch-to-open over a two-ornament population
at time 700 with an armed-at-0 cooldown selects a candidate from the
candidate set, displays it and pushes it onto the history. -/
theorem claim5_witness :
    ∃ sel, pickWeighted (candidatePhotoList (nearestPhotoList [1, 2] 3)
        (experienceMount 0).recentlyViewed) 0 = some sel ∧
      (experienceFrame 700 true [1, 2] 3 0 (experienceMount 0)).lightboxPhotoIndex =
        some sel.textureIndex ∧
      (experienceFrame 700 true [1, 2] 3 0 (experienceMount 0)).recentlyViewed =
        pushRecent (experienceMount 0).recentlyViewed sel.textureIndex ∧
      sel ∈ candidatePhotoList (nearestPhotoList [1, 2] 3)
        (experienceMount 0).recentlyViewed := by
  obtain ⟨sel, h1, h2, h3, h4, -⟩ := claim5_photo_selection 700 true [1, 2] 3 0
    (experienceMount 0) (by simp) ⟨by norm_num [experienceMount], rfl, rfl, rfl⟩
  exact ⟨sel, h1, h2, h3, h4⟩

end ChristmasTree
